import Mathlib

/-!
Verification development for the Album Artister program
(`src/albumArtister.py`): a shallow embedding in Lean 4 of its three
stages — file discoverer, song loader, tag fixer — together with
theorems settling the specified properties.

Conventions of the embedding:
* File-system paths are lists of name components, modelled as absolute
  paths (for an absolute argument, `pathlib`'s `joinpath` returns the
  argument itself, so `dir_path.joinpath(sub_dir)` on line 68 of the
  source is the subdirectory path).
* The external audio-tag library (`music_tag`) is not part of the
  repository; its handle is modelled from the spec (§6): a tag map with
  `has` (key presence), `get`, `set`, and `save`, plus a load operation
  that either returns a handle or raises one of the distinguishable
  error kinds caught in `load_song`.
* Python-level dynamic failures (calling `None`, membership test on
  `None`) are modelled by `Except PyError`.
-/

namespace AlbumArtister

/-- Tag-name constant from line 13 of the source. -/
def ARTIST : String := "artist"

/-- Tag-name constant from line 14 of the source. -/
def ALBUM_ARTIST : String := "album_artist"

/-- Tag-name constant from line 15 of the source. -/
def TITLE : String := "title"

/-- Suffix constant from line 16 of the source. -/
def MP3 : String := ".mp3"

/-- Modelled from the spec: the value stored under one tag key.  The
library's metadata items may be empty, so a value is an optional
string; `none` is an empty item. -/
abbrev TagValue := Option String

/-- Modelled from the spec (§6, §3): a song handle.  `tags` is the
in-memory tag map (an association list from field name to value);
`disk` is the tag map currently persisted in the underlying file.
`save` copies `tags` onto `disk`. -/
structure AudioFile where
  tags : List (String × TagValue)
  disk : List (String × TagValue)
  deriving DecidableEq, Repr

/-- Lookup of a key in a tag map (first binding wins). -/
def lookupTag : List (String × TagValue) → String → Option TagValue
  | [], _ => none
  | (k₁, v) :: rest, k => if k₁ = k then some v else lookupTag rest k

/-- Overwrite-or-append update of a tag map. -/
def setPair : List (String × TagValue) → String → TagValue → List (String × TagValue)
  | [], k, v => [(k, v)]
  | (k₁, v₁) :: rest, k, v =>
      if k₁ = k then (k, v) :: rest else (k₁, v₁) :: setPair rest k v

/-- Modelled from the spec (§4.3): presence of a field means the field
key exists in the handle's tag map, independent of its value.  This is
the test behind `ALBUM_ARTIST not in song` on line 26. -/
def hasTag (f : AudioFile) (k : String) : Bool :=
  (lookupTag f.tags k).isSome

/-- Modelled from the spec (§6): read a field's value; an absent key
reads as the empty value. This is `song[k]`. -/
def getTag (f : AudioFile) (k : String) : TagValue :=
  (lookupTag f.tags k).getD none

/-- Modelled from the spec (§6): write a field's value in memory.
This is `song[k] = v`. -/
def setTag (f : AudioFile) (k : String) (v : TagValue) : AudioFile :=
  { f with tags := setPair f.tags k v }

/-- Modelled from the spec (§6): persist the in-memory tag map to the
underlying file.  This is `song.save()` on line 40. -/
def save (f : AudioFile) : AudioFile :=
  { f with disk := f.tags }

/-- Embedding of `set_album_artist` (lines 33-40): read the artist
value, write it as the album artist, save. -/
def set_album_artist (song : AudioFile) : AudioFile :=
  let artist := getTag song ARTIST
  save (setTag song ALBUM_ARTIST artist)

/-- One iteration of the loop body of `fix_album_artist_tag`
(lines 25-29) on a non-`None` handle: if `ALBUM_ARTIST not in song`
then set it (returning `true`, the increment of `fixed_songs`),
otherwise leave the handle alone. -/
def fixOne (song : AudioFile) : AudioFile × Bool :=
  if hasTag song ALBUM_ARTIST then (song, false) else (set_album_artist song, true)

/-- Python dynamic errors that the script can actually raise. -/
inductive PyError where
  /-- `TypeError: argument of type NoneType is not iterable`, raised by
  `ALBUM_ARTIST not in song` when `song` is `None` (line 26). -/
  | typeErrorNoneNotIterable
  /-- `TypeError: NoneType object is not callable`, raised by
  `file_filter(...)` when `file_filter` is `None` (line 63). -/
  | typeErrorNoneNotCallable
  deriving DecidableEq, Repr

/-- Embedding of `fix_album_artist_tag` (lines 19-30).  The input list
may hold `none` entries, because `load_song` returns `None` on a failed
load and `load_all_songs` appends that result unconditionally; on such
an entry the membership test `ALBUM_ARTIST not in song` raises a
`TypeError`.  The result is the list of processed handles together with
the final `fixed_songs` count. -/
def fix_album_artist_tag : List (Option AudioFile) → Except PyError (List (Option AudioFile) × Nat)
  | [] => .ok ([], 0)
  | none :: _ => .error .typeErrorNoneNotIterable
  | some song :: rest =>
      let r := fixOne song
      match fix_album_artist_tag rest with
      | .ok (songs, n) => .ok (some r.1 :: songs, (if r.2 then 1 else 0) + n)
      | .error e => .error e

theorem lookupTag_setPair_self (l : List (String × TagValue)) (k : String) (v : TagValue) :
    lookupTag (setPair l k v) k = some v := by
  induction l with
  | nil => simp [setPair, lookupTag]
  | cons hd tl ih =>
      obtain ⟨k₁, v₁⟩ := hd
      by_cases h : k₁ = k <;> simp [setPair, lookupTag, h, ih]

theorem hasTag_fixOne (s : AudioFile) : hasTag (fixOne s).1 ALBUM_ARTIST = true := by
  cases h : hasTag s ALBUM_ARTIST with
  | true => simp [fixOne, h]
  | false =>
      simp only [fixOne, h, Bool.false_eq_true, if_false]
      simp [set_album_artist, save, setTag, hasTag, lookupTag_setPair_self]

theorem fixOne_of_hasTag (s : AudioFile) (h : hasTag s ALBUM_ARTIST = true) :
    fixOne s = (s, false) := by
  simp [fixOne, h]

theorem fixOne_fixOne (s : AudioFile) :
    fixOne ((fixOne s).1) = ((fixOne s).1, false) :=
  fixOne_of_hasTag _ (hasTag_fixOne s)

/-! ## Song loader -/

/-- Modelled from the spec (§6, §7): the distinguishable error kinds the
external `music_tag.load_file` can raise, matching the `except` clauses
of `load_song` (lines 94-101). -/
inductive LoadFailure where
  | unboundLocal
  | notImplemented
  | permission
  | other (msg : String)
  deriving DecidableEq, Repr

/-- One line printed by `load_song` when a load fails. -/
inductive LogLine where
  /-- `File is not a music file: {path}` (lines 95 and 97). -/
  | notMusicFile (path : List String)
  /-- `Permission error: {path}` (line 99). -/
  | permissionError (path : List String)
  /-- `Something went wrong: {e} Path: {path}` (line 101). -/
  | somethingWentWrong (msg : String) (path : List String)
  deriving DecidableEq, Repr

/-- Embedding of `load_song` (lines 86-103).  The external
`music_tag.load_file` is passed in as an oracle `load_file` from paths
to either a handle or a raised error kind.  On success the handle is
returned; on any caught error the function prints one message and falls
off the end, returning `None` — modelled as `none` paired with the list
of printed lines. -/
def load_song (load_file : List String → Except LoadFailure AudioFile)
    (path : List String) : Option AudioFile × List LogLine :=
  match load_file path with
  | .ok song => (some song, [])
  | .error .unboundLocal => (none, [.notMusicFile path])
  | .error .notImplemented => (none, [.notMusicFile path])
  | .error .permission => (none, [.permissionError path])
  | .error (.other m) => (none, [.somethingWentWrong m path])

/-- Embedding of `load_all_songs` (lines 73-83): append the result of
`load_song` for every path, failed loads included. -/
def load_all_songs (load_file : List String → Except LoadFailure AudioFile)
    (files : List (List String)) : List (Option AudioFile) :=
  files.map fun p => (load_song load_file p).1

/-! ## File discoverer -/

/-- A directory entry of the file-system tree walked by
`get_all_files`: either a regular file or a directory with its own
listing.  `os.listdir` on a directory yields the names of its entries
in listing order. -/
inductive FSEntry where
  | file (name : String)
  | dir (name : String) (children : List FSEntry)
  deriving Repr

/-- The name component of an entry. -/
def FSEntry.name : FSEntry → String
  | .file n => n
  | .dir n _ => n

@[simp]
theorem FSEntry.name_file (n : String) : (FSEntry.file n).name = n := rfl

@[simp]
theorem FSEntry.name_dir (n : String) (c : List FSEntry) : (FSEntry.dir n c).name = n := rfl

/-- The recursive part of `get_all_files` (lines 64-69): for each entry
of the listing that is a directory, the files collected from that
subdirectory (the body of `get_all_files` for the subdirectory is
inlined so that the recursion is on the entry list). -/
def gafSubdirs (file_filter : List String → Bool) (dir_path : List String) :
    List FSEntry → List (List String)
  | [] => []
  | .file _ :: rest => gafSubdirs file_filter dir_path rest
  | .dir n c :: rest =>
      ((((c.map FSEntry.name).filter fun m => file_filter (dir_path ++ [n] ++ [m])).map
          fun m => dir_path ++ [n] ++ [m])
        ++ gafSubdirs file_filter (dir_path ++ [n]) c)
      ++ gafSubdirs file_filter dir_path rest

/-- Embedding of `get_all_files` (lines 54-70) for a non-`None` filter:
the entries of the listing passing `file_filter` (the comprehension of
lines 61-63 applies the filter to every entry, directories included),
followed by the recursive results for each subdirectory.
`gaf_dir_cons` below checks that the inlined recursive part agrees with
the function itself on subdirectories. -/
def get_all_files (file_filter : List String → Bool) (dir_path : List String)
    (entries : List FSEntry) : List (List String) :=
  (((entries.map FSEntry.name).filter fun n => file_filter (dir_path ++ [n])).map
      fun n => dir_path ++ [n])
    ++ gafSubdirs file_filter dir_path entries

/-- Embedding of `get_all_files` as declared, with its `Optional`
filter honored (line 54).  When `file_filter` is `None`, the list
comprehension of lines 61-63 calls `file_filter(...)` on the first
entry of the listing and raises a `TypeError`; only an empty listing
(no entry, hence no call and no subdirectory) completes, returning
`[]`.  When a filter is present no call in the body can raise. -/
def get_all_files_opt (file_filter : Option (List String → Bool)) (dir_path : List String)
    (entries : List FSEntry) : Except PyError (List (List String)) :=
  match file_filter with
  | some f => .ok (get_all_files f dir_path entries)
  | none =>
      match entries with
      | [] => .ok []
      | _ :: _ => .error .typeErrorNoneNotCallable

/-- Specification-side inventory: the paths of all entries (regular
files and directories alike) in the tree, in depth-first order. -/
def entryPaths (dir_path : List String) : List FSEntry → List (List String)
  | [] => []
  | .file n :: rest => (dir_path ++ [n]) :: entryPaths dir_path rest
  | .dir n c :: rest =>
      (dir_path ++ [n]) :: (entryPaths (dir_path ++ [n]) c ++ entryPaths dir_path rest)

/-- Specification-side inventory: the paths of the regular files of the
tree, in depth-first order. -/
def filePaths (dir_path : List String) : List FSEntry → List (List String)
  | [] => []
  | .file n :: rest => (dir_path ++ [n]) :: filePaths dir_path rest
  | .dir n c :: rest => filePaths (dir_path ++ [n]) c ++ filePaths dir_path rest

/-- Specification-side inventory: the paths of the directories of the
tree. -/
def dirPaths (dir_path : List String) : List FSEntry → List (List String)
  | [] => []
  | .file _ :: rest => dirPaths dir_path rest
  | .dir n c :: rest =>
      (dir_path ++ [n]) :: (dirPaths (dir_path ++ [n]) c ++ dirPaths dir_path rest)

/-! ## CLI entry point -/

/-- Embedding of `pathlib.PurePath.suffix` on one name component: the
substring from the last dot on, provided that dot is neither the first
nor past the last character; otherwise the empty string. -/
def pySuffix (name : String) : String :=
  let cs := name.toList
  let r := cs.reverse.findIdx fun ch => ch == '.'
  if r < cs.length then
    let i := cs.length - 1 - r
    if 0 < i ∧ i + 1 < cs.length then String.mk (cs.drop i) else ""
  else ""

/-- The filter `main` passes to `get_all_files` (line 111):
`file_path.suffix == MP3`, a case-sensitive comparison with `.mp3`. -/
def main_filter (p : List String) : Bool :=
  pySuffix (p.getLastD "") == MP3

/-- The file list `main` discovers and hands to `load_all_songs`
(lines 110-112), for a given root path and tree. -/
def main_discovered (root : List String) (tree : List FSEntry) : List (List String) :=
  get_all_files main_filter root tree

/-! ## Lemmas about the discoverer -/

theorem FSEntry.list_induction (P : List FSEntry → Prop) (hnil : P [])
    (hfile : ∀ n rest, P rest → P (FSEntry.file n :: rest))
    (hdir : ∀ n c rest, P c → P rest → P (FSEntry.dir n c :: rest)) :
    ∀ l, P l := by
  have key : ∀ k l, sizeOf l < k → P l := by
    intro k
    induction k with
    | zero => intro l h; omega
    | succ k ih =>
        intro l h
        cases l with
        | nil => exact hnil
        | cons e rest =>
            cases e with
            | file n =>
                refine hfile n rest (ih rest ?_)
                simp at h
                omega
            | dir n c =>
                refine hdir n c rest (ih c ?_) (ih rest ?_) <;> (simp at h; omega)
  intro l
  exact key (sizeOf l + 1) l (by omega)

theorem gafSubdirs_nil (f : List String → Bool) (p : List String) :
    gafSubdirs f p [] = [] := by
  simp [gafSubdirs]

theorem gafSubdirs_cons_file (f : List String → Bool) (p : List String) (n : String)
    (rest : List FSEntry) : gafSubdirs f p (FSEntry.file n :: rest) = gafSubdirs f p rest := by
  simp [gafSubdirs]

/-- The inlined recursive part of `get_all_files` agrees with the
function itself on each subdirectory, matching lines 67-69 of the
source. -/
theorem gafSubdirs_cons_dir (f : List String → Bool) (p : List String) (n : String)
    (c rest : List FSEntry) :
    gafSubdirs f p (FSEntry.dir n c :: rest) =
      get_all_files f (p ++ [n]) c ++ gafSubdirs f p rest := by
  simp [gafSubdirs, get_all_files]

theorem gaf_nil (f : List String → Bool) (p : List String) :
    get_all_files f p [] = [] := by
  simp [get_all_files, gafSubdirs]

theorem gaf_cons_file (f : List String → Bool) (p : List String) (n : String)
    (rest : List FSEntry) :
    get_all_files f p (FSEntry.file n :: rest) =
      (if f (p ++ [n]) then [p ++ [n]] else []) ++ get_all_files f p rest := by
  by_cases h : f (p ++ [n]) <;>
    simp [get_all_files, gafSubdirs_cons_file, List.filter_cons, h]

theorem gaf_cons_dir_perm (f : List String → Bool) (p : List String) (n : String)
    (c rest : List FSEntry) :
    (get_all_files f p (FSEntry.dir n c :: rest)).Perm
      ((if f (p ++ [n]) then [p ++ [n]] else []) ++
        (get_all_files f (p ++ [n]) c ++ get_all_files f p rest)) := by
  have hshape : get_all_files f p (FSEntry.dir n c :: rest) =
      (if f (p ++ [n]) then [p ++ [n]] else []) ++
        (((((rest.map FSEntry.name).filter fun m => f (p ++ [m])).map fun m => p ++ [m])
            ++ (get_all_files f (p ++ [n]) c ++ gafSubdirs f p rest))) := by
    by_cases h : f (p ++ [n]) <;>
      simp [get_all_files, gafSubdirs_cons_dir, List.filter_cons, h]
  rw [hshape]
  refine List.Perm.append_left _ ?_
  have hrest : get_all_files f p rest =
      (((rest.map FSEntry.name).filter fun m => f (p ++ [m])).map fun m => p ++ [m])
        ++ gafSubdirs f p rest := rfl
  rw [hrest, ← List.append_assoc, ← List.append_assoc]
  exact List.Perm.append_right _ List.perm_append_comm

theorem entryPaths_nil (p : List String) : entryPaths p [] = [] := by
  simp [entryPaths]

theorem entryPaths_cons_file (p : List String) (n : String) (rest : List FSEntry) :
    entryPaths p (FSEntry.file n :: rest) = (p ++ [n]) :: entryPaths p rest := by
  simp [entryPaths]

theorem entryPaths_cons_dir (p : List String) (n : String) (c rest : List FSEntry) :
    entryPaths p (FSEntry.dir n c :: rest) =
      (p ++ [n]) :: (entryPaths (p ++ [n]) c ++ entryPaths p rest) := by
  simp [entryPaths]

/-- What `get_all_files` returns, as a multiset: the entry paths of the
tree — regular files and directories alike — that satisfy the filter. -/
theorem gaf_perm (f : List String → Bool) :
    ∀ (l : List FSEntry) (p : List String),
      (get_all_files f p l).Perm ((entryPaths p l).filter f) := by
  refine FSEntry.list_induction (fun l => ∀ p, _) ?_ ?_ ?_
  · intro p
    simp [gaf_nil, entryPaths_nil]
  · intro n rest ih p
    by_cases h : f (p ++ [n])
    · simpa [gaf_cons_file, entryPaths_cons_file, List.filter_cons, h] using
        List.Perm.cons (p ++ [n]) (ih p)
    · simpa [gaf_cons_file, entryPaths_cons_file, List.filter_cons, h] using ih p
  · intro n c rest ihc ihrest p
    refine (gaf_cons_dir_perm f p n c rest).trans ?_
    refine (List.Perm.append_left _ ((ihc (p ++ [n])).append (ihrest p))).trans ?_
    by_cases h : f (p ++ [n]) <;>
      simp [entryPaths_cons_dir, List.filter_cons, List.filter_append, h]

/-- Membership form of `gaf_perm`. -/
theorem gaf_mem (f : List String → Bool) (p : List String) (l : List FSEntry)
    (q : List String) :
    q ∈ get_all_files f p l ↔ q ∈ entryPaths p l ∧ f q = true := by
  rw [(gaf_perm f l p).mem_iff, List.mem_filter]

/-- Every regular-file path of the tree is an entry path. -/
theorem filePaths_subset_entryPaths :
    ∀ (l : List FSEntry) (p q : List String), q ∈ filePaths p l → q ∈ entryPaths p l := by
  refine FSEntry.list_induction (fun l => ∀ p q, q ∈ filePaths p l → q ∈ entryPaths p l) ?_ ?_ ?_
  · intro p q h
    simp [filePaths] at h
  · intro n rest ih p q h
    rw [show filePaths p (FSEntry.file n :: rest) = (p ++ [n]) :: filePaths p rest by
      simp [filePaths]] at h
    rw [entryPaths_cons_file]
    rcases List.mem_cons.mp h with h1 | h2
    · exact List.mem_cons.mpr (Or.inl h1)
    · exact List.mem_cons.mpr (Or.inr (ih p q h2))
  · intro n c rest ihc ihrest p q h
    rw [show filePaths p (FSEntry.dir n c :: rest) =
        filePaths (p ++ [n]) c ++ filePaths p rest by simp [filePaths]] at h
    rw [entryPaths_cons_dir]
    rcases List.mem_append.mp h with h1 | h2
    · exact List.mem_cons.mpr (Or.inr (List.mem_append.mpr (Or.inl (ihc _ q h1))))
    · exact List.mem_cons.mpr (Or.inr (List.mem_append.mpr (Or.inr (ihrest p q h2))))

/-! ## Concrete sample data used by witnesses and counterexamples -/

/-- A song with an `artist` tag but no `album_artist` tag. -/
def songA : AudioFile :=
  { tags := [(ARTIST, some "Bob"), (TITLE, some "One")]
    disk := [(ARTIST, some "Bob"), (TITLE, some "One")] }

/-- A song that already has an `album_artist` tag. -/
def songB : AudioFile :=
  { tags := [(ARTIST, some "Bob"), (ALBUM_ARTIST, some "Bob"), (TITLE, some "Two")]
    disk := [(ARTIST, some "Bob"), (ALBUM_ARTIST, some "Bob"), (TITLE, some "Two")] }

/-- A two-file tree: one lower-case `.mp3` file, one upper-case `.MP3`
file. -/
def sampleTree : List FSEntry :=
  [FSEntry.file "a.mp3", FSEntry.file "b.MP3"]

/-! ## Claims -/

/-- C1: a song handle that reaches the set branch of the Fixer (its
`album_artist` field absent, its `artist` field present) afterwards
reports a non-absent `album_artist` field equal to the prior `artist`
value, the change is persisted via save, and `fix_album_artist_tag`
routes such a handle through `set_album_artist`, counting it as
fixed. -/
theorem C1_set_branch (song : AudioFile)
    (h1 : hasTag song ALBUM_ARTIST = false) (_h2 : hasTag song ARTIST = true) :
    hasTag (set_album_artist song) ALBUM_ARTIST = true ∧
    getTag (set_album_artist song) ALBUM_ARTIST = getTag song ARTIST ∧
    (set_album_artist song).disk = (set_album_artist song).tags ∧
    fix_album_artist_tag [some song] = .ok ([some (set_album_artist song)], 1) := by
  refine ⟨?_, ?_, ?_, ?_⟩
  · simp [set_album_artist, save, setTag, hasTag, lookupTag_setPair_self]
  · simp [set_album_artist, save, setTag, getTag, lookupTag_setPair_self]
  · rfl
  · simp [fix_album_artist_tag, fixOne, h1]

/-- Witness for C1 at the concrete song `songA`. -/
theorem C1_set_branch_witness :
    hasTag (set_album_artist songA) ALBUM_ARTIST = true ∧
    getTag (set_album_artist songA) ALBUM_ARTIST = getTag songA ARTIST ∧
    (set_album_artist songA).disk = (set_album_artist songA).tags ∧
    fix_album_artist_tag [some songA] = .ok ([some (set_album_artist songA)], 1) :=
  C1_set_branch songA rfl rfl

/-- C2 is a code bug: a path whose load fails is not skipped.
`load_song` falls off the end and returns `None`, `load_all_songs`
appends that `None` to the downstream sequence, and
`fix_album_artist_tag` then raises a `TypeError` evaluating
`ALBUM_ARTIST not in None`, crashing the run instead of continuing.
This theorem evaluates the pipeline at one failing path. -/
theorem C2_failed_load_crashes :
    load_all_songs (fun _ => .error .notImplemented) [["bad.mp3"]] = [none] ∧
    fix_album_artist_tag
        (load_all_songs (fun _ => .error .notImplemented) [["bad.mp3"]]) =
      .error .typeErrorNoneNotIterable :=
  ⟨rfl, rfl⟩

/-- C3 as stated is false: a directory entry whose path satisfies the
predicate is also returned.  Concretely, the tree holding one empty
directory `d` has zero regular files satisfying the always-true
predicate, yet `get_all_files` returns one path (the directory), so it
does not return exactly the N matching file paths. -/
theorem C3_counterexample :
    filePaths [] [FSEntry.dir "d" []] = [] ∧
    get_all_files (fun _ => true) [] [FSEntry.dir "d" []] = [["d"]] ∧
    ¬ (get_all_files (fun _ => true) [] [FSEntry.dir "d" []]).Perm
        ((filePaths [] [FSEntry.dir "d" []]).filter fun _ => true) := by
  have h1 : filePaths [] [FSEntry.dir "d" []] = [] := by simp [filePaths]
  have h2 : get_all_files (fun _ => true) [] [FSEntry.dir "d" []] = [["d"]] := by
    simp [get_all_files, gafSubdirs]
  refine ⟨h1, h2, ?_⟩
  intro hperm
  rw [h1, h2] at hperm
  simpa using hperm.length_eq

/-- C3 amended: `get_all_files` returns exactly the entry paths — of
regular files and directories alike — that satisfy the filter
predicate, at arbitrary nesting depth (as a multiset; order
interleaves differently). -/
theorem C3_returns_matching_entries (f : List String → Bool) (p : List String)
    (l : List FSEntry) :
    (get_all_files f p l).Perm ((entryPaths p l).filter f) :=
  gaf_perm f l p

/-- C4 as stated is false: the filter predicate is applied to directory
entries as well, and a directory whose path satisfies it appears in the
returned list.  Concretely, an empty directory named `songs.mp3` is
returned by `get_all_files` under the `.mp3`-suffix filter that `main`
uses. -/
theorem C4_counterexample :
    ["songs.mp3"] ∈ get_all_files main_filter [] [FSEntry.dir "songs.mp3" []] ∧
    ["songs.mp3"] ∈ dirPaths [] [FSEntry.dir "songs.mp3" []] := by
  have h : get_all_files main_filter [] [FSEntry.dir "songs.mp3" []] = [["songs.mp3"]] := by
    simp [get_all_files, gafSubdirs]
    decide
  constructor
  · simp [h]
  · simp [dirPaths]

/-- C4 amended: the filter predicate decides inclusion uniformly for
every entry, directories included — a path is returned iff it is an
entry path of the tree and the predicate holds for it — and every
directory is descended into regardless of the predicate (a deep file
is returned whether or not its ancestors satisfy the predicate). -/
theorem C4_filter_applied_to_every_entry (f : List String → Bool) (p : List String)
    (l : List FSEntry) (q : List String) :
    q ∈ get_all_files f p l ↔ q ∈ entryPaths p l ∧ f q = true :=
  gaf_mem f p l q

/-- C5: a handle whose `album_artist` field is already present is left
untouched by the Fixer — same tag map, same persisted state, not
counted as fixed. -/
theorem C5_skip_branch (song : AudioFile) (h : hasTag song ALBUM_ARTIST = true) :
    fixOne song = (song, false) ∧
    fix_album_artist_tag [some song] = .ok ([some song], 0) := by
  refine ⟨fixOne_of_hasTag song h, ?_⟩
  simp [fix_album_artist_tag, fixOne, h]

/-- Witness for C5 at the concrete song `songB`. -/
theorem C5_skip_branch_witness :
    fixOne songB = (songB, false) ∧
    fix_album_artist_tag [some songB] = .ok ([some songB], 0) :=
  C5_skip_branch songB rfl

/-- C6: the Fixer is idempotent — when a first run completes with some
output handles and count, a second run over those handles changes
nothing and fixes zero songs, because every handle then has
`album_artist` present. -/
theorem C6_second_run_fixes_nothing (l out : List (Option AudioFile)) (n : Nat)
    (h : fix_album_artist_tag l = .ok (out, n)) :
    fix_album_artist_tag out = .ok (out, 0) := by
  induction l generalizing out n with
  | nil =>
      simp only [fix_album_artist_tag, Except.ok.injEq, Prod.mk.injEq] at h
      rw [← h.1]
      rfl
  | cons head rest ih =>
      cases head with
      | none => simp [fix_album_artist_tag] at h
      | some s =>
          rcases hrest : fix_album_artist_tag rest with e | pr
          · rw [fix_album_artist_tag, hrest] at h
            simp at h
          · obtain ⟨songs, m⟩ := pr
            rw [fix_album_artist_tag, hrest] at h
            simp only [Except.ok.injEq, Prod.mk.injEq] at h
            rw [← h.1]
            have ihs := ih songs m hrest
            rw [fix_album_artist_tag, ihs, fixOne_fixOne]
            simp

/-- Witness for C6: one run over `songA` (missing the tag) and `songB`
(having it) fixes one song; the run over its output fixes zero. -/
theorem C6_second_run_fixes_nothing_witness :
    fix_album_artist_tag [some (set_album_artist songA), some songB] =
      .ok ([some (set_album_artist songA), some songB], 0) :=
  C6_second_run_fixes_nothing [some songA, some songB]
    [some (set_album_artist songA), some songB] 1 rfl

/-- C7: whatever error kind the external load operation raises,
`load_song` catches it, prints exactly one message, and returns an
absent result instead of propagating the exception. -/
theorem C7_load_errors_caught (load_file : List String → Except LoadFailure AudioFile)
    (path : List String) (e : LoadFailure) (h : load_file path = .error e) :
    (load_song load_file path).1 = none ∧ (load_song load_file path).2.length = 1 := by
  cases e <;> simp [load_song, h]

/-- Witness for C7 at a permission error. -/
theorem C7_load_errors_caught_witness :
    (load_song (fun _ => .error .permission) ["x.mp3"]).1 = none ∧
    (load_song (fun _ => .error .permission) ["x.mp3"]).2.length = 1 :=
  C7_load_errors_caught (fun _ => .error .permission) ["x.mp3"] .permission rfl

/-- C8: a discovered regular file is passed to the Loader iff its
file-name extension is exactly the fixed lossy-audio extension `.mp3`,
compared case-sensitively; in particular a `.MP3` file is never
considered. -/
theorem C8_mp3_suffix_filter (root : List String) (tree : List FSEntry)
    (q : List String) (h : q ∈ filePaths root tree) :
    q ∈ main_discovered root tree ↔ pySuffix (q.getLastD "") = MP3 := by
  rw [main_discovered, gaf_mem]
  constructor
  · rintro ⟨-, hf⟩
    simpa [main_filter] using hf
  · intro hsuf
    refine ⟨filePaths_subset_entryPaths tree root q h, ?_⟩
    simp only [main_filter, beq_iff_eq]
    exact hsuf

/-- Witness for C8: in a tree holding `a.mp3` and `b.MP3`, the former
is discovered and the latter is not. -/
theorem C8_mp3_suffix_filter_witness :
    ["a.mp3"] ∈ main_discovered [] sampleTree ∧
    ["b.MP3"] ∉ main_discovered [] sampleTree := by
  constructor
  · exact (C8_mp3_suffix_filter [] sampleTree ["a.mp3"] (by simp [sampleTree, filePaths])).mpr rfl
  · intro hmem
    have hsuf := (C8_mp3_suffix_filter [] sampleTree ["b.MP3"]
      (by simp [sampleTree, filePaths])).mp hmem
    exact absurd hsuf (by decide)

/-- C9: `load_all_songs` returns one entry per input path — the output
has exactly the input's length — and a path whose load fails
contributes a `none` entry at its position rather than being omitted,
so the songs-found count `main` reports equals the number of discovered
paths, failed loads included. -/
theorem C9_one_entry_per_path (load_file : List String → Except LoadFailure AudioFile)
    (files : List (List String)) :
    (load_all_songs load_file files).length = files.length ∧
    ∀ (i : Nat) (p : List String) (e : LoadFailure),
      files[i]? = some p → load_file p = .error e →
      (load_all_songs load_file files)[i]? = some none := by
  constructor
  · simp [load_all_songs]
  · intro i p e h1 h2
    rw [load_all_songs, List.getElem?_map, h1]
    cases e <;> simp [load_song, h2]

/-- Witness for C9: a single failing path yields a one-entry list whose
entry is `none`. -/
theorem C9_one_entry_per_path_witness :
    (load_all_songs (fun _ => .error .permission) [["bad.mp3"]]).length = 1 ∧
    (load_all_songs (fun _ => .error .permission) [["bad.mp3"]])[0]? = some none :=
  ⟨(C9_one_entry_per_path (fun _ => .error .permission) [["bad.mp3"]]).1,
    (C9_one_entry_per_path (fun _ => .error .permission) [["bad.mp3"]]).2
      0 ["bad.mp3"] .permission rfl rfl⟩

/-- C10: with `file_filter = None`, `get_all_files` raises a
`TypeError` on every directory whose listing has at least one entry
(the filter is called unconditionally on each entry), while an empty
directory returns `[]` because the filter is never invoked. -/
theorem C10_none_filter_fails (p : List String) (entries : List FSEntry)
    (h : entries ≠ []) :
    get_all_files_opt none p entries = .error .typeErrorNoneNotCallable ∧
    get_all_files_opt none p [] = .ok [] := by
  constructor
  · cases entries with
    | nil => exact absurd rfl h
    | cons e rest => rfl
  · rfl

/-- Witness for C10 at a one-entry directory. -/
theorem C10_none_filter_fails_witness :
    get_all_files_opt none [] [FSEntry.file "a"] = .error .typeErrorNoneNotCallable ∧
    get_all_files_opt none ([] : List String) [] = .ok [] :=
  C10_none_filter_fails [] [FSEntry.file "a"] (by simp)

end AlbumArtister
